import Mathlib

/-!
Verification of the HelenOS interrupt command-list fragments.

Embedded source files:
- src/uspace/drv/audio/hdaudio/hdaudio.c   (command list, ranges, hda_dev_add)
- src/kbd/arch/mips32/src/kbd.c            (msim command list, kbd_arch_process)
- src/kernel/generic/include/macros.h      (overlaps)
- src/uspace/drv/rootpc/rootpc.c           (rootpc_add_device and helpers)

The kernel interrupt-time interpreter itself is not among the source
files (only the command lists that feed it are), so its semantics is
modelled from the specification text, as marked on each such definition.
-/

/-- Register contents: a map from addresses to byte values. -/
abbrev Mem := Nat → Nat

/-- Pointwise update of a map, used for scratch registers and memory. -/
def updf (f : Nat → Nat) (k v : Nat) : Nat → Nat :=
  fun x => if x = k then v else f x

/-- Command opcodes appearing in the embedded source files, plus DECLINE
from the specification command vocabulary (CMD_DECLINE occurs in no
embedded source file). -/
inductive CmdType where
  | pioRead8
  | pioWrite8
  | cmdAnd
  | predicate
  | accept
  | decline
  | memRead1
deriving DecidableEq, Repr

/-- Mirror of irq_cmd_t: opcode plus addr, value, srcarg, dstarg fields.
Fields left out of a C designated initializer default to zero; a NULL
addr is modelled as 0. -/
structure IrqCmd where
  cmd : CmdType
  addr : Nat := 0
  value : Nat := 0
  srcarg : Nat := 0
  dstarg : Nat := 0
deriving DecidableEq, Repr

/-- Mirror of irq_pio_range_t: base address and byte size. -/
structure IrqPioRange where
  base : Nat
  size : Nat
deriving DecidableEq, Repr

/-- Mirror of irq_code_t as used by hdaudio.c: range count, ranges,
command count, commands. -/
structure IrqCode where
  rangecount : Nat
  ranges : List IrqPioRange
  cmdcount : Nat
  cmds : List IrqCmd

/-- Mirror of the two-field irq_code_t used by the mips32 keyboard
fragment: command count and commands only. -/
structure IrqCodeOld where
  cmdcount : Nat
  cmds : List IrqCmd

/-- Interpreter verdict: was the interrupt claimed by this device? -/
inductive Verdict where
  | Claimed
  | NotClaimed
deriving DecidableEq, Repr

/-- Result of one interpreter invocation: the verdict, the register
writes performed in order (address, value), the scratch trace (each
value stored to a scratch slot, in order), the number of commands
executed, and the final register contents. -/
structure ExecResult where
  verdict : Verdict
  writes : List (Nat × Nat)
  trace : List Nat
  steps : Nat
  mem : Mem

/-- Modelled from the spec: the kernel interrupt-time interpreter
(section 4.3), which is not among the embedded source files.  Commands
run strictly in array order; READ stores a byte into a scratch slot,
AND masks a scratch value with the immediate mask, PREDICATE terminates
immediately with NotClaimed when the scratch value differs from the
expected value carried in the value field, WRITE stores an immediate
byte, ACCEPT terminates Claimed, DECLINE terminates NotClaimed.
Falling off the end of the list is a validation-time contract
violation; it is modelled as NotClaimed (the interrupt is left
unclaimed).  The scratch file starts zeroed (section 3). -/
def execCmds (mem : Mem) (scratch : Nat → Nat) : List IrqCmd → ExecResult
  | [] => ⟨Verdict.NotClaimed, [], [], 0, mem⟩
  | c :: rest =>
    match c.cmd with
    | CmdType.pioRead8 =>
      let v := mem c.addr % 256
      let r := execCmds mem (updf scratch c.dstarg v) rest
      ⟨r.verdict, r.writes, v :: r.trace, r.steps + 1, r.mem⟩
    | CmdType.memRead1 =>
      let v := mem c.addr % 256
      let r := execCmds mem (updf scratch c.dstarg v) rest
      ⟨r.verdict, r.writes, v :: r.trace, r.steps + 1, r.mem⟩
    | CmdType.cmdAnd =>
      let v := Nat.land (scratch c.srcarg) c.value
      let r := execCmds mem (updf scratch c.dstarg v) rest
      ⟨r.verdict, r.writes, v :: r.trace, r.steps + 1, r.mem⟩
    | CmdType.predicate =>
      if scratch c.srcarg = c.value then
        let r := execCmds mem scratch rest
        ⟨r.verdict, r.writes, r.trace, r.steps + 1, r.mem⟩
      else
        ⟨Verdict.NotClaimed, [], [], 1, mem⟩
    | CmdType.pioWrite8 =>
      let w := c.value % 256
      let r := execCmds (updf mem c.addr w) scratch rest
      ⟨r.verdict, (c.addr, w) :: r.writes, r.trace, r.steps + 1, r.mem⟩
    | CmdType.accept => ⟨Verdict.Claimed, [], [], 1, mem⟩
    | CmdType.decline => ⟨Verdict.NotClaimed, [], [], 1, mem⟩

/-- All-zero initial scratch file for one interpreter invocation. -/
def scratch0 : Nat → Nat := fun _ => 0

/-- Modelled from the spec: one full interpreter invocation on a
command list against given register contents, starting from a zeroed
scratch file. -/
def execute (code : IrqCode) (mem : Mem) : ExecResult :=
  execCmds mem scratch0 code.cmds

/-- Bit index of the RIRB interrupt status flag rirbsts_intfl.  The
header spec/regs.h is not among the embedded source files; the spec
example uses the mask 0x01, hence bit 0. -/
def rirbsts_intfl : Nat := 0

/-- Mirror of the BIT_V macro: the value with only the given bit set. -/
def BIT_V (i : Nat) : Nat := 2 ^ i

/-- hdaudio.c lines 73-78: one PIO range, base 0 (patched later),
size 8192. -/
def hdaudio_irq_pio_ranges : List IrqPioRange :=
  [ { base := 0, size := 8192 } ]

/-- hdaudio.c lines 80-105: READ8 into scratch 2; AND with the rirbsts
interrupt flag into scratch 3; PREDICATE on scratch 3 with value field
2; WRITE8 of the flag; ACCEPT.  Both addr fields are NULL (0) until
hda_dev_add patches them. -/
def hdaudio_irq_commands : List IrqCmd :=
  [ { cmd := CmdType.pioRead8, addr := 0, dstarg := 2 },
    { cmd := CmdType.cmdAnd, value := BIT_V rirbsts_intfl, srcarg := 2, dstarg := 3 },
    { cmd := CmdType.predicate, value := 2, srcarg := 3 },
    { cmd := CmdType.pioWrite8, addr := 0, value := BIT_V rirbsts_intfl },
    { cmd := CmdType.accept } ]

/-- hdaudio.c lines 107-112: the irq_code_t aggregating the ranges and
commands, with the counts computed from the array sizes. -/
def hdaudio_irq_code : IrqCode :=
  { rangecount := hdaudio_irq_pio_ranges.length,
    ranges := hdaudio_irq_pio_ranges,
    cmdcount := hdaudio_irq_commands.length,
    cmds := hdaudio_irq_commands }

/-- kbd.c lines 33-35: a single CMD_MEM_READ_1 command at 0xB0000000
with value 0. -/
def msim_cmds : List IrqCmd :=
  [ { cmd := CmdType.memRead1, addr := 0xB0000000, value := 0 } ]

/-- kbd.c lines 37-40: the keyboard irq_code_t, count 1 plus the
command array. -/
def msim_kbd : IrqCodeOld :=
  { cmdcount := 1, cmds := msim_cmds }

/-- A terminal command per spec section 4.2: ACCEPT or DECLINE. -/
def isTerminal : CmdType → Bool
  | CmdType.accept => true
  | CmdType.decline => true
  | _ => false

/-- Does the command list end in a terminal command? -/
def endsTerminal (cmds : List IrqCmd) : Bool :=
  match cmds.getLast? with
  | some c => isTerminal c.cmd
  | none => false

/-- Overwrite the addr field of the command at the given index, as
hda_dev_add lines 185-186 do to the command array. -/
def setCmdAddr : List IrqCmd → Nat → Nat → List IrqCmd
  | [], _, _ => []
  | c :: rest, 0, a => { c with addr := a } :: rest
  | c :: rest, Nat.succ i, a => c :: setCmdAddr rest i a

/-- The hdaudio command list after hda_dev_add, lines 185-186, patches
the addr fields of commands 0 and 3 to the rirbsts register address. -/
def hdaPatchedCmds (a : Nat) : List IrqCmd :=
  setCmdAddr (setCmdAddr hdaudio_irq_commands 0 a) 3 a

/-- Overwrite the base field of the range at the given index, as
hda_dev_add line 184 does to the range array. -/
def setRangeBase : List IrqPioRange → Nat → Nat → List IrqPioRange
  | [], _, _ => []
  | r :: rest, 0, b => { r with base := b } :: rest
  | r :: rest, Nat.succ i, b => r :: setRangeBase rest i b

/-- The hdaudio range array after hda_dev_add, line 184, patches the
base of range 0 to the device register base rwbase. -/
def hdaPatchedRanges (b : Nat) : List IrqPioRange :=
  setRangeBase hdaudio_irq_pio_ranges 0 b

/-- The interrupt program as hda_dev_add, lines 184-192, registers it:
the counts of hdaudio_irq_code, the range array patched to the device
register base b, and the command array with commands 0 and 3 patched
to the rirbsts register address b + off (the offset of the rirbsts
field of hda_regs_t, whose header is not among the embedded source
files). -/
def hdaPatchedCode (b off : Nat) : IrqCode :=
  { rangecount := hdaudio_irq_code.rangecount,
    ranges := hdaPatchedRanges b,
    cmdcount := hdaudio_irq_code.cmdcount,
    cmds := hdaPatchedCmds (b + off) }

/-- The generic five-command shape of spec section 8: READ, AND(mask),
PREDICATE(expected), WRITE, ACCEPT, with explicit scratch wiring. -/
def predicateShape (addr i mask j x waddr wval : Nat) : List IrqCmd :=
  [ { cmd := CmdType.pioRead8, addr := addr, dstarg := i },
    { cmd := CmdType.cmdAnd, value := mask, srcarg := i, dstarg := j },
    { cmd := CmdType.predicate, value := x, srcarg := j },
    { cmd := CmdType.pioWrite8, addr := waddr, value := wval },
    { cmd := CmdType.accept } ]

/-- HelenOS error constant EOK (success). -/
def EOK : Int := 0

/-- HelenOS error constant ENOMEM.  The errno header is not among the
embedded source files; the exact negative value is immaterial to the
claims, only distinctness from EOK matters. -/
def ENOMEM : Int := -2

/-- HelenOS error constant EIO (same remark as for ENOMEM; named Eio
here because the source name collides with a library name). -/
def Eio : Int := -5

/-- HelenOS error constant EINVAL (same remark as for ENOMEM). -/
def EINVAL : Int := -14

/-- Observable events of hda_dev_add that touch the globally shared
interrupt program: the three mutations of lines 184-186 and the call
to register_interrupt_handler of line 191. -/
inductive HdaEv where
  | mutRangeBase
  | mutCmd0Addr
  | mutCmd3Addr
  | regHandler
deriving DecidableEq, Repr

/-- Outcomes of the external calls hda_dev_add makes, so that every
control path of the function can be followed.  resRc, pioRc, regRc and
bindRc are the codes returned by hw_res_get_list_parsed, pio_enable,
register_interrupt_handler and ddf_fun_bind; the booleans tell whether
the corresponding pointer-returning call succeeded; memCount, memSize
and irqCount describe the parsed resource list. -/
structure HdaEnv where
  allocOk : Bool
  sessOk : Bool
  resRc : Int
  memCount : Nat
  memSize : Nat
  pioRc : Int
  irqCount : Nat
  regRc : Int
  ctlOk : Bool
  funOk : Bool
  bindRc : Int

/-- hdaudio.c lines 114-231, hda_dev_add: returns the result code and
the trace of events touching the shared interrupt program, in program
order.  regsSize stands for sizeof(hda_regs_t), whose header is not
among the embedded source files.  Control flow mirrors the source: on
the irqCount mismatch path (lines 176-180) the source jumps to the
error label without assigning rc, so the value still held from
pio_enable (EOK on that path) is returned. -/
def hda_dev_add (regsSize : Nat) (env : HdaEnv) : Int × List HdaEv :=
  if env.allocOk = false then (ENOMEM, [])
  else if env.sessOk = false then (ENOMEM, [])
  else if env.resRc ≠ EOK then (env.resRc, [])
  else if env.memCount ≠ 1 then (EINVAL, [])
  else if env.memSize < regsSize then (EINVAL, [])
  else if env.pioRc ≠ EOK then (env.pioRc, [])
  else if env.irqCount ≠ 1 then (env.pioRc, [])
  else
    let evs := [HdaEv.mutRangeBase, HdaEv.mutCmd0Addr, HdaEv.mutCmd3Addr,
                HdaEv.regHandler]
    if env.regRc ≠ EOK then (env.regRc, evs)
    else if env.ctlOk = false then (Eio, evs)
    else if env.funOk = false then (ENOMEM, evs)
    else if env.bindRc ≠ EOK then (env.bindRc, evs)
    else (EOK, evs)

/-- Is this event a mutation of the shared interrupt program? -/
def isMut : HdaEv → Bool
  | HdaEv.regHandler => false
  | _ => true

/-- True when no mutation event follows any regHandler event. -/
def noMutAfterReg : List HdaEv → Bool
  | [] => true
  | HdaEv.regHandler :: rest => rest.all (fun e => isMut e = false) && noMutAfterReg rest
  | _ :: rest => noMutAfterReg rest

/-- True when, whenever registration happens, all three mutations of
the interrupt program occur strictly before the first regHandler
event, and nothing mutates it afterwards. -/
def frozenAfterReg (l : List HdaEv) : Bool :=
  noMutAfterReg l &&
    (if HdaEv.regHandler ∈ l then
      let before := l.takeWhile (fun e => e ≠ HdaEv.regHandler)
      decide (HdaEv.mutRangeBase ∈ before) &&
      decide (HdaEv.mutCmd0Addr ∈ before) &&
      decide (HdaEv.mutCmd3Addr ∈ before)
    else true)

/-- Messages rootpc.c can print, as an enumeration (the exact text is
irrelevant to the claims). -/
inductive RootpcMsg where
  | deviceHandle
  | addingFun
  | errorBindingFun
  | failedAddFun
  | failedAddFunctions
deriving DecidableEq, Repr

/-- Outcomes of the external calls rootpc_add_fun makes. -/
structure RootpcEnv where
  funCreateOk : Bool
  matchIdOk : Bool
  bindRc : Int

/-- rootpc.c lines 117-163, rootpc_add_fun: returns whether the
function was added and the messages printed, in program order. -/
def rootpc_add_fun (env : RootpcEnv) : Bool × List RootpcMsg :=
  if env.funCreateOk = false then
    (false, [RootpcMsg.addingFun, RootpcMsg.failedAddFun])
  else if env.matchIdOk = false then
    (false, [RootpcMsg.addingFun, RootpcMsg.failedAddFun])
  else if env.bindRc ≠ EOK then
    (false, [RootpcMsg.addingFun, RootpcMsg.errorBindingFun, RootpcMsg.failedAddFun])
  else
    (true, [RootpcMsg.addingFun])

/-- rootpc.c lines 165-168, rootpc_add_functions: delegates to
rootpc_add_fun for the single pci0 function. -/
def rootpc_add_functions (env : RootpcEnv) : Bool × List RootpcMsg :=
  rootpc_add_fun env

/-- rootpc.c lines 176-187, rootpc_add_device: prints the handle
message, adds the platform functions, prints a failure message when
that fails, and returns EOK unconditionally. -/
def rootpc_add_device (env : RootpcEnv) : Int × List RootpcMsg :=
  let r := rootpc_add_functions env
  if r.1 = false then
    (EOK, RootpcMsg.deviceHandle :: r.2 ++ [RootpcMsg.failedAddFunctions])
  else
    (EOK, RootpcMsg.deviceHandle :: r.2)

/-- kbd.c: key_buffer_push appends one scan code to the key buffer
(the buffer implementation is external; appending models one push
call). -/
def key_buffer_push (buf : List Int) (k : Int) : List Int :=
  buf ++ [k]

/-- kbd.c lines 48-52, kbd_arch_process: pushes the scan code onto the
key buffer and returns 1.  State-passing style: the function maps the
buffer before the call to the buffer after it, paired with the return
value. -/
def kbd_arch_process (buf : List Int) (scan_code : Int) : List Int × Int :=
  (key_buffer_push buf scan_code, 1)

/-- macros.h lines 49-55, overlaps: end addresses are computed in
uintptr_t, that is modulo 2 to the machine word width w; the result is
the C truth value of (s1 < e2) && (s2 < e1). -/
def overlaps (w : Nat) (s1 sz1 s2 sz2 : Nat) : Bool :=
  let e1 := (s1 + sz1) % 2 ^ w
  let e2 := (s2 + sz2) % 2 ^ w
  decide (s1 < e2) && decide (s2 < e1)

/-- Concrete environment for hda_dev_add in which the parsed resource
list has zero memory ranges and everything else succeeds. -/
def hdaEnvBad : HdaEnv :=
  { allocOk := true, sessOk := true, resRc := EOK, memCount := 0,
    memSize := 100, pioRc := EOK, irqCount := 1, regRc := EOK,
    ctlOk := true, funOk := true, bindRc := EOK }

theorem updf_eq (f : Nat → Nat) (k v : Nat) : updf f k v k = v := by
  simp [updf]

theorem land_one_ne_two (v : Nat) : Nat.land v 1 ≠ 2 := by
  have h : v &&& 1 = v % 2 := Nat.and_one_is_mod v
  have h2 : v % 2 < 2 := Nat.mod_lt v (by decide)
  show v &&& 1 ≠ 2
  omega

theorem execCmds_steps_le (cmds : List IrqCmd) :
    ∀ (mem : Mem) (scratch : Nat → Nat),
      (execCmds mem scratch cmds).steps ≤ cmds.length := by
  induction cmds with
  | nil => intro mem scratch; simp [execCmds]
  | cons c rest ih =>
    intro mem scratch
    cases hc : c.cmd <;> simp only [execCmds, hc, List.length_cons]
    case pioRead8 => exact Nat.succ_le_succ (ih _ _)
    case pioWrite8 => exact Nat.succ_le_succ (ih _ _)
    case cmdAnd => exact Nat.succ_le_succ (ih _ _)
    case memRead1 => exact Nat.succ_le_succ (ih _ _)
    case predicate =>
      split
      · exact Nat.succ_le_succ (ih _ _)
      · exact Nat.succ_le_succ (Nat.zero_le _)
    case accept => exact Nat.succ_le_succ (Nat.zero_le _)
    case decline => exact Nat.succ_le_succ (Nat.zero_le _)

theorem shape_short_circuit (addr i mask j x waddr wval : Nat) (mem : Mem)
    (h : Nat.land (mem addr % 256) mask ≠ x) :
    (execCmds mem scratch0 (predicateShape addr i mask j x waddr wval)).verdict =
      Verdict.NotClaimed ∧
    (execCmds mem scratch0 (predicateShape addr i mask j x waddr wval)).writes = [] := by
  simp only [predicateShape, execCmds, updf_eq]
  rw [if_neg h]
  exact ⟨rfl, rfl⟩

theorem hdaPatched_eq_shape (a : Nat) :
    hdaPatchedCmds a = predicateShape a 2 1 3 2 a 1 := rfl

/-- Claim C1: the HD-Audio command list is exactly the five-command
shape READ, AND(mask), PREDICATE(expected), WRITE, ACCEPT, and for any
list of that shape, executing it against register contents whose read
value masks to something different from the expected value yields
NotClaimed and performs zero register writes: the WRITE after the
failed PREDICATE is never executed. -/
theorem C1_predicate_short_circuit :
    hdaudio_irq_commands = predicateShape 0 2 1 3 2 0 1 ∧
    ∀ (addr i mask j x waddr wval : Nat) (mem : Mem),
      Nat.land (mem addr % 256) mask ≠ x →
      (execCmds mem scratch0 (predicateShape addr i mask j x waddr wval)).verdict =
        Verdict.NotClaimed ∧
      (execCmds mem scratch0 (predicateShape addr i mask j x waddr wval)).writes = [] :=
  ⟨rfl, fun addr i mask j x waddr wval mem h =>
    shape_short_circuit addr i mask j x waddr wval mem h⟩

/-- Witness for C1 at the HD-Audio instance: register contents all 1,
mask 1, expected value 2; the masked value 1 differs from 2, the
verdict is NotClaimed and no write happens. -/
theorem C1_witness :
    Nat.land ((fun _ => 1 : Mem) 0 % 256) 1 ≠ 2 ∧
    (execCmds (fun _ => 1) scratch0 (predicateShape 0 2 1 3 2 0 1)).verdict =
      Verdict.NotClaimed ∧
    (execCmds (fun _ => 1) scratch0 (predicateShape 0 2 1 3 2 0 1)).writes = [] :=
  ⟨by decide, C1_predicate_short_circuit.2 0 2 1 3 2 0 1 (fun _ => 1) (by decide)⟩

/-- Counterexample to claim C2: the PREDICATE command of the HD-Audio
list carries value 2 (not 1), and executing the patched list against
register contents holding 0x01 at every address yields NotClaimed, not
the claimed Claimed: the masked value 1 never equals the expected
value 2 under the specified PREDICATE semantics. -/
theorem C2_counterexample :
    hdaudio_irq_commands[2]? =
      some { cmd := CmdType.predicate, value := 2, srcarg := 3 } ∧
    ¬ (execCmds (fun _ => 1) scratch0 (hdaPatchedCmds 32)).verdict = Verdict.Claimed ∧
    (execCmds (fun _ => 1) scratch0 (hdaPatchedCmds 32)).verdict = Verdict.NotClaimed := by
  refine ⟨by decide, by decide, by decide⟩

/-- Claim C2 as amended: the interrupt program as registered has
exactly one range, of size 8192 and based at the device register base
b (patched by line 184), and exactly the five commands READ8(b+off)
into scratch 2, AND with 0x01 into scratch 3, PREDICATE on scratch 3
with value 2, WRITE8(b+off, 0x01), ACCEPT, where READ and WRITE are
patched to the same rirbsts register address b+off; under the
specified PREDICATE semantics execution yields NotClaimed with zero
writes for every register contents, in particular both 0x01 and
0x00. -/
theorem C2_hdaudio_program (b off : Nat) (mem : Mem) :
    (hdaPatchedCode b off).rangecount = 1 ∧
    (hdaPatchedCode b off).ranges = [{ base := b, size := 8192 }] ∧
    (hdaPatchedCode b off).cmdcount = 5 ∧
    (hdaPatchedCode b off).cmds =
      [ { cmd := CmdType.pioRead8, addr := b + off, dstarg := 2 },
        { cmd := CmdType.cmdAnd, value := 1, srcarg := 2, dstarg := 3 },
        { cmd := CmdType.predicate, value := 2, srcarg := 3 },
        { cmd := CmdType.pioWrite8, addr := b + off, value := 1 },
        { cmd := CmdType.accept } ] ∧
    (execute (hdaPatchedCode b off) mem).verdict = Verdict.NotClaimed ∧
    (execute (hdaPatchedCode b off) mem).writes = [] := by
  refine ⟨rfl, rfl, rfl, rfl, ?_, ?_⟩
  · show (execCmds mem scratch0 (hdaPatchedCmds (b + off))).verdict =
      Verdict.NotClaimed
    rw [hdaPatched_eq_shape]
    exact (shape_short_circuit (b + off) 2 1 3 2 (b + off) 1 mem
      (land_one_ne_two _)).1
  · show (execCmds mem scratch0 (hdaPatchedCmds (b + off))).writes = []
    rw [hdaPatched_eq_shape]
    exact (shape_short_circuit (b + off) 2 1 3 2 (b + off) 1 mem
      (land_one_ne_two _)).2

/-- Counterexample to claim C3: the msim keyboard command list is
nonempty and does not end in a terminal command (its only command is
CMD_MEM_READ_1). -/
theorem C3_counterexample :
    endsTerminal msim_kbd.cmds = false ∧ msim_kbd.cmds ≠ [] := by
  refine ⟨by decide, by decide⟩

/-- Claim C3 as amended: the HD-Audio list ends in the terminal
command ACCEPT, but the msim keyboard list consists of the single
non-terminal command CMD_MEM_READ_1 and ends in no terminal command. -/
theorem C3_terminal_amended :
    endsTerminal hdaudio_irq_code.cmds = true ∧
    (hdaudio_irq_code.cmds.getLast?).map IrqCmd.cmd = some CmdType.accept ∧
    endsTerminal msim_kbd.cmds = false ∧
    msim_kbd.cmds.map IrqCmd.cmd = [CmdType.memRead1] := by
  refine ⟨by decide, by decide, by decide, by decide⟩

/-- Claim C4: the interpreter is deterministic: two executions of the
same command list against identical register contents yield the same
verdict and the same scratch trace. -/
theorem C4_interpreter_deterministic (code : IrqCode) (mem : Mem)
    (r1 r2 : ExecResult)
    (h1 : r1 = execute code mem) (h2 : r2 = execute code mem) :
    r1.verdict = r2.verdict ∧ r1.trace = r2.trace := by
  subst h1; subst h2; exact ⟨rfl, rfl⟩

/-- Witness for C4: two runs of the HD-Audio program on all-one
register contents agree on verdict and scratch trace. -/
theorem C4_witness :
    execute hdaudio_irq_code (fun _ => 1) = execute hdaudio_irq_code (fun _ => 1) ∧
    ((execute hdaudio_irq_code (fun _ => 1)).verdict =
       (execute hdaudio_irq_code (fun _ => 1)).verdict ∧
     (execute hdaudio_irq_code (fun _ => 1)).trace =
       (execute hdaudio_irq_code (fun _ => 1)).trace) :=
  ⟨rfl, C4_interpreter_deterministic hdaudio_irq_code (fun _ => 1)
    (execute hdaudio_irq_code (fun _ => 1))
    (execute hdaudio_irq_code (fun _ => 1)) rfl rfl⟩

/-- Claim C5: execution is one pass over the command array: whenever
the stored command count equals the length of the command list (as it
does for hdaudio_irq_code, where it is computed from the array size),
the interpreter executes at most cmdcount commands. -/
theorem C5_single_pass_bound (code : IrqCode) (mem : Mem)
    (h : code.cmdcount = code.cmds.length) :
    (execute code mem).steps ≤ code.cmdcount := by
  rw [h]
  exact execCmds_steps_le code.cmds mem scratch0

/-- Witness for C5: the HD-Audio program, whose cmdcount is 5, takes
at most 5 steps on all-zero register contents. -/
theorem C5_witness :
    hdaudio_irq_code.cmdcount = hdaudio_irq_code.cmds.length ∧
    (execute hdaudio_irq_code (fun _ => 0)).steps ≤ hdaudio_irq_code.cmdcount :=
  ⟨rfl, C5_single_pass_bound hdaudio_irq_code (fun _ => 0) rfl⟩

/-- Projection of an if-then-else pair into the if of its second
components. -/
theorem ite_snd {c : Prop} [inst : Decidable c] (a b : Int × List HdaEv) :
    (if c then a else b).2 = if c then a.2 else b.2 := by
  split <;> rfl

/-- Claim C6: on every control path of hda_dev_add, all three
mutations of the shared interrupt program (range base and the two
command addresses) happen strictly before register_interrupt_handler
is invoked, and no path mutates the program afterwards.  The other
functions of hdaudio.c never reference the program at all. -/
theorem C6_frozen_after_registration (regsSize : Nat) (env : HdaEnv) :
    frozenAfterReg (hda_dev_add regsSize env).2 = true := by
  unfold hda_dev_add
  by_cases h1 : env.allocOk = false
  · rw [if_pos h1]; rfl
  · rw [if_neg h1]
    by_cases h2 : env.sessOk = false
    · rw [if_pos h2]; rfl
    · rw [if_neg h2]
      by_cases h3 : env.resRc ≠ EOK
      · rw [if_pos h3]; rfl
      · rw [if_neg h3]
        by_cases h4 : env.memCount ≠ 1
        · rw [if_pos h4]; rfl
        · rw [if_neg h4]
          by_cases h5 : env.memSize < regsSize
          · rw [if_pos h5]; rfl
          · rw [if_neg h5]
            by_cases h6 : env.pioRc ≠ EOK
            · rw [if_pos h6]; rfl
            · rw [if_neg h6]
              by_cases h7 : env.irqCount ≠ 1
              · rw [if_pos h7]; rfl
              · rw [if_neg h7]
                simp only [ite_snd, ite_self]
                rfl

/-- Claim C7: kbd_arch_process pushes exactly the given scan code,
exactly once (the buffer grows by exactly that one element), and
returns 1. -/
theorem C7_kbd_process (buf : List Int) (scan_code : Int) :
    (kbd_arch_process buf scan_code).1 = key_buffer_push buf scan_code ∧
    key_buffer_push buf scan_code = buf ++ [scan_code] ∧
    (kbd_arch_process buf scan_code).2 = 1 :=
  ⟨rfl, rfl, rfl⟩

/-- Counterexample to claim C8: a zero-size interval can overlap a
nonzero interval: the empty interval starting at 5 overlaps the
interval of base 0 and size 10 on a 32-bit machine, refuting the
clause that a size-0 interval never overlaps any interval. -/
theorem C8_counterexample : overlaps 32 5 0 0 10 = true := by decide

/-- Claim C8 as amended: overlaps returns true iff s1 is below the
wrapped end of the second interval and s2 below the wrapped end of the
first; a size-0 interval never overlaps itself (though it may overlap
a nonzero-sized interval strictly containing its start). -/
theorem C8_overlaps_amended (w s1 sz1 s2 sz2 s : Nat) :
    (overlaps w s1 sz1 s2 sz2 = true ↔
      (s1 < (s2 + sz2) % 2 ^ w ∧ s2 < (s1 + sz1) % 2 ^ w)) ∧
    overlaps w s 0 s 0 = false := by
  constructor
  · simp [overlaps]
  · have hle : (s + 0) % 2 ^ w ≤ s := by
      have := Nat.mod_le (s + 0) (2 ^ w)
      omega
    simp only [overlaps, Bool.and_self]
    exact decide_eq_false (by omega)

/-- Claim C9: when allocation, session creation and resource-list
retrieval succeed but the parsed list lacks exactly one memory range,
or its single range is smaller than the register set, hda_dev_add
returns EINVAL and never reaches interrupt registration. -/
theorem C9_einval_no_registration (regsSize : Nat) (env : HdaEnv)
    (ha : env.allocOk = true) (hs : env.sessOk = true) (hr : env.resRc = EOK)
    (hbad : env.memCount ≠ 1 ∨ env.memSize < regsSize) :
    (hda_dev_add regsSize env).1 = EINVAL ∧
    HdaEv.regHandler ∉ (hda_dev_add regsSize env).2 := by
  rcases hbad with hm | hsz
  · simp [hda_dev_add, ha, hs, hr, hm]
  · by_cases hm : env.memCount = 1
    · simp [hda_dev_add, ha, hs, hr, hm, hsz]
    · simp [hda_dev_add, ha, hs, hr, hm]

/-- Witness for C9: with a resource list of zero memory ranges and all
earlier calls succeeding, hda_dev_add returns EINVAL and produces no
registration event. -/
theorem C9_witness :
    hdaEnvBad.allocOk = true ∧ hdaEnvBad.sessOk = true ∧
    hdaEnvBad.resRc = EOK ∧
    (hdaEnvBad.memCount ≠ 1 ∨ hdaEnvBad.memSize < 64) ∧
    ((hda_dev_add 64 hdaEnvBad).1 = EINVAL ∧
      HdaEv.regHandler ∉ (hda_dev_add 64 hdaEnvBad).2) :=
  ⟨rfl, rfl, rfl, Or.inl (by decide),
    C9_einval_no_registration 64 hdaEnvBad rfl rfl rfl (Or.inl (by decide))⟩

/-- Claim C10: rootpc_add_device returns EOK for every outcome of its
external calls; a failure to add the pci0 platform function surfaces
only as the printed failure message, never in the return code. -/
theorem C10_rootpc_eok (env : RootpcEnv) :
    (rootpc_add_device env).1 = EOK ∧
    (RootpcMsg.failedAddFunctions ∈ (rootpc_add_device env).2 ↔
      (rootpc_add_functions env).1 = false) := by
  unfold rootpc_add_device rootpc_add_functions rootpc_add_fun
  repeat' split <;> simp_all
